import Mathlib

/-
Verification of the pdf-table-extractor core algorithms.

This file gives a shallow embedding of the algorithmic core of the
repository (grid-based text assignment, line clustering, detected-line
coordinate mapping, marker-store mutations, and heuristic text-orientation
detection/correction) and proves properties about it.

Conventions of the embedding:
- Python strings are Lean `String`s; the Python `str` methods used by the
  source (`split`, `strip`, `isdigit`, `join`, `count`, slicing `[::-1]`,
  `replace`) are modelled by explicit structural functions over `String.data`
  so that every definition evaluates by kernel reduction.
- Document-space coordinates (floats in the source) are modelled as `ℚ`;
  pixel positions are `ℕ`; marker values produced through Python `int()` are
  `ℤ`.
- Fallible code (a `try`/`except` returning `None`) is modelled with
  `Option`.
-/

/-! ## Python string-method models -/

/-- Rebuild a `String` from a character list. -/
def ofChars (l : List Char) : String := String.mk l

/-- Python slicing `s[::-1]`: reverse the code points of a string. -/
def strRev (s : String) : String := ofChars s.data.reverse

/-- Split a character list at every occurrence of `sep`, keeping empty
pieces, exactly as Python `str.split(sep)` with an explicit separator does
(`"".split(sep) == ['']`). -/
def splitOnChar (sep : Char) : List Char → List (List Char)
  | [] => [[]]
  | c :: rest =>
    match splitOnChar sep rest with
    | h :: t => if c = sep then [] :: h :: t else (c :: h) :: t
    | [] => if c = sep then [[], []] else [[c]]

/-- Python `cell.split('\n')`. -/
def pySplitLines (s : String) : List String := (splitOnChar '\n' s.data).map ofChars

/-- Python `str.strip()` on the ASCII whitespace the source ever produces
(space, tab, CR, LF; Lean's `Char.isWhitespace` covers exactly these). -/
def pyStrip (s : String) : String :=
  ofChars (((s.data.dropWhile Char.isWhitespace).reverse.dropWhile Char.isWhitespace).reverse)

/-- Python `str.isdigit()` restricted to ASCII digits: true iff the string is
nonempty and all characters are digits. -/
def pyIsdigit (s : String) : Bool := !s.data.isEmpty && s.data.all Char.isDigit

/-- Python `sep.join(pieces)`. -/
def joinWith (sep : String) : List String → String
  | [] => ""
  | [x] => x
  | x :: y :: rest => x ++ sep ++ joinWith sep (y :: rest)

/-- Python `c in s` for a single character. -/
def containsChar (s : String) (c : Char) : Bool := s.data.contains c

/-- Python non-overlapping substring count `s.count(w)` (scan left to right,
on a match skip the matched block).  The fuel argument is the length of the
remaining text; every step consumes at least one character, so the fuel never
runs out on the initial call. -/
def countSubstrAux : ℕ → List Char → List Char → ℕ
  | 0, _, _ => 0
  | _ + 1, _, [] => 0
  | _ + 1, [], _ :: _ => 0
  | fuel + 1, a :: tl, b :: wtl =>
    if List.isPrefixOf (b :: wtl) (a :: tl) then
      1 + countSubstrAux fuel (tl.drop wtl.length) (b :: wtl)
    else
      countSubstrAux fuel tl (b :: wtl)

/-- Python `s.count(w)` for nonempty `w`. -/
def countSubstr (s w : List Char) : ℕ := countSubstrAux s.length s w

/-! ## Text-orientation corrector
(src/core/text_orientation_corrector.py) -/

/-- A table grid: rectangular 2D array of cell strings. -/
abbrev Grid := List (List String)

/-- Correction kinds dispatched by `correct_text_orientation`
(src/core/text_orientation_corrector.py lines 52-58). -/
inductive CorrectionKind where
  | vertical
  | rtl
  | flipped
deriving DecidableEq

/-- Outcome of `detect_text_orientation_from_pdf`
(src/core/text_orientation_corrector.py lines 231-287): the geometry check
reports vertical, rtl, or nothing.  It reads the PDF page, which is outside
the grid, so it enters the embedding as a parameter. -/
inductive PdfOrientation where
  | noneDetected
  | vertical
  | rtl
deriving DecidableEq

/-- Number of greedy repetitions of `\s[a-zA-Z]\s` at the head of the text
(one repetition of the regex group is whitespace, letter, whitespace). -/
def wsLetterWsReps : List Char → ℕ
  | a :: b :: c :: rest =>
    if a.isWhitespace && b.isAlpha && c.isWhitespace then 1 + wsLetterWsReps rest
    else 0
  | _ => 0

/-- Number of non-overlapping matches of `(?:\s[a-zA-Z]\s){3,}` as counted by
`re.findall` (src line 96-97): at each position take the maximal run of
whitespace-letter-whitespace groups; runs of at least three groups count as
one match and scanning resumes after them.  Fuel = remaining length; a
counted match consumes at least nine characters. -/
def countSingleCharRuns : ℕ → List Char → ℕ
  | 0, _ => 0
  | _ + 1, [] => 0
  | fuel + 1, a :: tl =>
    if 3 ≤ wsLetterWsReps (a :: tl) then
      1 + countSingleCharRuns fuel ((a :: tl).drop (3 * wsLetterWsReps (a :: tl)))
    else
      countSingleCharRuns fuel tl

/-- Number of non-overlapping matches of `[a-zA-Z]\n[a-zA-Z]` as counted by
`re.findall` (src lines 118-120). -/
def countMidwordNewlines : List Char → ℕ
  | a :: b :: c :: rest =>
    if a.isAlpha && b = '\n' && c.isAlpha then 1 + countMidwordNewlines rest
    else countMidwordNewlines (b :: c :: rest)
  | _ => 0

/-- The hard-coded reversed common words of `_analyze_text_orientation`
(src line 102). -/
def commonReversed : List String :=
  ["eht", "dna", "rof", "era", "elbaT", "egaP", "txeT", "ataD"]

/-- `' '.join([''.join([cell for cell in row if cell]) for row in table])`
(src line 85). -/
def allTextOfGrid (g : Grid) : String :=
  joinWith " " (g.map (fun row => String.join (row.filter (fun c => c ≠ ""))))

/-- The `vertical_indicators` score of `_analyze_text_orientation`
(src lines 91-125).  The float comparison `n_count > e_count * 1.5` is exact
on the integer counts that occur, hence rendered as `3 * e < 2 * n`. -/
def verticalIndicators (t : String) (pdf : PdfOrientation) : ℕ :=
  countSingleCharRuns t.data.length t.data * 2
  + (commonReversed.map (fun w => countSubstr t.data w.data * 3)).sum
  + (if 3 * ((t.data.map Char.toLower).count 'e') < 2 * ((t.data.map Char.toLower).count 'n')
     then 5 else 0)
  + countMidwordNewlines t.data
  + (if pdf = PdfOrientation.vertical then 10 else 0)

/-- `_analyze_text_orientation` (src lines 76-131): text shorter than 20
characters is never corrected; otherwise a score of at least 5 reports
vertical; nothing else is ever reported. -/
def analyzeTextOrientation (g : Grid) (pdf : PdfOrientation) :
    Bool × Option CorrectionKind :=
  let t := allTextOfGrid g
  if t.length < 20 then (false, none)
  else if 5 ≤ verticalIndicators t pdf then (true, some CorrectionKind.vertical)
  else (false, none)

/-- Backtracking semantics of `re.match(r'([a-zA-Z] ){2,}[a-zA-Z]', cell)`:
does the text start with `j` repetitions of letter-space followed by a
letter? -/
def altPatChk : ℕ → List Char → Bool
  | 0, ch :: _ => ch.isAlpha
  | 0, [] => false
  | j + 1, a :: b :: rest => a.isAlpha && b = ' ' && altPatChk j rest
  | _ + 1, _ => false

/-- `re.match(r'([a-zA-Z] ){2,}[a-zA-Z]', cell)` succeeds iff some
repetition count of at least two yields a prefix match (src line 170). -/
def altPatMatch (s : String) : Bool :=
  (List.range (s.length + 1)).any (fun j => decide (2 ≤ j) && altPatChk j s.data)

/-- Per-cell body of `_correct_vertical_text` (src lines 139-173).  The float
comparison `len(short_lines) > len(lines) * 0.6` is exact for the list
lengths that occur and is rendered as `3 * lines < 5 * short`. -/
def correctVerticalCell (c : String) : String :=
  if c = "" then c
  else if c.length < 3 ∨ pyIsdigit c then c
  else
    let lines := pySplitLines c
    let shortLines := lines.filter (fun l => (pyStrip l).length ≤ 2 ∧ 0 < (pyStrip l).length)
    if 3 ≤ lines.length ∧ 3 * lines.length < 5 * shortLines.length then
      let corrected := String.join ((lines.reverse.filter (fun l => pyStrip l ≠ "")).map pyStrip)
      if 3 ≤ corrected.length then corrected else c
    else if ¬ containsChar c '\n' ∧ 3 ≤ c.length then
      if altPatMatch c then strRev (ofChars (c.data.filter (fun ch => ch ≠ ' '))) else c
    else c

/-- `_correct_vertical_text` over the whole grid (src lines 133-175): each
cell is read and rewritten independently. -/
def correctVerticalText (g : Grid) : Grid :=
  g.map (fun row => row.map correctVerticalCell)

/-- Per-cell body of `_correct_rtl_text` (src lines 177-190): reverse the
full cell string, skipping empty and single-character cells. -/
def correctRtlCell (c : String) : String :=
  if c = "" ∨ c.length < 2 then c else strRev c

/-- `_correct_rtl_text` over the whole grid. -/
def correctRtlText (g : Grid) : Grid := g.map (fun row => row.map correctRtlCell)

/-- Per-cell body of `_correct_flipped_text` (src lines 192-207): reverse
each line's characters and the line order. -/
def correctFlippedCell (c : String) : String :=
  if c = "" ∨ c.length < 2 then c
  else joinWith "\n" (((pySplitLines c).reverse).map strRev)

/-- `_correct_flipped_text` over the whole grid. -/
def correctFlippedText (g : Grid) : Grid :=
  g.map (fun row => row.map correctFlippedCell)

/-! ## Grid-based text assignment
(src/core/table_extractor.py) -/

/-- A positioned text fragment: one PyMuPDF span with its bounding box in
document space. -/
structure Span where
  text : String
  x0 : ℚ
  y0 : ℚ
  x1 : ℚ
  y1 : ℚ
deriving DecidableEq

/-- The extraction mode chosen in `_show_extraction_mode_dialog`
(src line 545, 601): cell-join separator. -/
inductive ExtractionMode where
  | space
  | newline
deriving DecidableEq

/-- Separator used by `_extract_table_data` for each mode
(src lines 526-529). -/
def sepOf : ExtractionMode → String
  | ExtractionMode.space => " "
  | ExtractionMode.newline => "\n"

/-- Python `min(lst) if lst else d`. -/
def pyMin (l : List ℚ) (d : ℚ) : ℚ :=
  match l with
  | [] => d
  | x :: xs => xs.foldl min x

/-- Python `max(lst) if lst else d`. -/
def pyMax (l : List ℚ) (d : ℚ) : ℚ :=
  match l with
  | [] => d
  | x :: xs => xs.foldl max x

/-- The index-search loop shared by the column and the row assignment
(src lines 90-102 and 509-521): the first `i` with
`bounds[i] <= c < bounds[i+1]`, `none` when no band matches (`-1` in the
source). -/
def findIdx : List ℚ → ℚ → Option ℕ
  | b0 :: b1 :: rest, c =>
    if b0 ≤ c ∧ c < b1 then some 0
    else (findIdx (b1 :: rest) c).map (· + 1)
  | _, _ => none

/-- `len(bounds) - 1 if len(bounds) > 1 else 1` (src lines 61-62, 483-484):
number of cell bands between sorted markers. -/
def bandCount (bounds : List ℚ) : ℕ :=
  if 1 < bounds.length then bounds.length - 1 else 1

/-- Cell update of src lines 104-109 / 523-531: append with the separator
when the cell already has content, otherwise set it. -/
def joinCell (sep old t : String) : String :=
  if old ≠ "" then old ++ sep ++ t else t

/-- Body of the span loop of `extract_table` / `_extract_table_data`
(src lines 74-109 and 492-531): locate the span's bbox-center cell and
update it; spans outside the marker bounding box or outside every band are
discarded. -/
def placeSpanWith (sep : String) (minX maxX minY maxY : ℚ)
    (colBounds rowBounds : List ℚ) (cols rows : ℕ) (table : Grid) (s : Span) : Grid :=
  let cx := s.x0 + (s.x1 - s.x0) / 2
  let cy := s.y0 + (s.y1 - s.y0) / 2
  if ¬ (minX ≤ cx ∧ cx ≤ maxX ∧ minY ≤ cy ∧ cy ≤ maxY) then table
  else
    match findIdx colBounds cx, findIdx rowBounds cy with
    | some ci, some ri =>
      if ci < cols ∧ ri < rows then
        table.set ri ((table.getD ri []).set ci (joinCell sep ((table.getD ri []).getD ci "") s.text))
      else table
    | _, _ => table

/-- Common grid-construction core of `extract_table` (src lines 43-109) and
`_extract_table_data` (src lines 464-533), parameterised by the cell-join
separator, which is the only difference between the two source functions.
`pw`/`ph` are `page.rect.width`/`page.rect.height`, used only when a marker
list is empty. -/
def extractGrid (sep : String) (pw ph : ℚ) (colMarkers rowMarkers : List ℚ)
    (spans : List Span) : Grid :=
  let minX := pyMin colMarkers 0
  let maxX := pyMax colMarkers pw
  let minY := pyMin rowMarkers 0
  let maxY := pyMax rowMarkers ph
  let colBounds := colMarkers.insertionSort (· ≤ ·)
  let rowBounds := rowMarkers.insertionSort (· ≤ ·)
  let cols := bandCount colBounds
  let rows := bandCount rowBounds
  spans.foldl (placeSpanWith sep minX maxX minY maxY colBounds rowBounds cols rows)
    (List.replicate rows (List.replicate cols ""))

/-- `extract_table` (src lines 30-141): the single-page extractor always
joins colliding fragments with a newline (src line 107,
`# Use newline instead of space`), regardless of the selected extraction
mode. -/
def extractTable (pw ph : ℚ) (colMarkers rowMarkers : List ℚ) (spans : List Span) : Grid :=
  extractGrid "\n" pw ph colMarkers rowMarkers spans

/-- `_extract_table_data` grid construction (src lines 464-533): the
per-page extractor joins with the mode-selected separator. -/
def extractTableData (mode : ExtractionMode) (pw ph : ℚ)
    (colMarkers rowMarkers : List ℚ) (spans : List Span) : Grid :=
  extractGrid (sepOf mode) pw ph colMarkers rowMarkers spans

/-- Markers saved for one page by `save_page_markers`
(src/core/marker_manager.py lines 136-155). -/
structure PageMarkers where
  columns : List ℚ
  rows : List ℚ
deriving DecidableEq

/-- `_extract_table_data` as a whole (src lines 454-536): the body runs
under `try`/`except` and returns `None` when reading the page raises, so
the page content enters as an `Option`. -/
def extractTableDataOpt (mode : ExtractionMode) (pw ph : ℚ) (m : PageMarkers)
    (content : Option (List Span)) : Option Grid :=
  content.map (fun spans => extractTableData mode pw ph m.columns m.rows spans)

/-- The per-page loop of `extract_from_marked_pages` (src lines 379-405):
walk the marked pages in ascending index order, extract each one with its
saved markers, and keep a result only when it is truthy
(`if page_table: all_tables.append(page_table)`, src lines 404-405).
`keys` and `markers` model the `page_markers` dict, `doc` the document. -/
def extractFromMarkedPages (mode : ExtractionMode) (pw ph : ℚ) (keys : List ℕ)
    (markers : ℕ → PageMarkers) (doc : ℕ → Option (List Span)) : List Grid :=
  (keys.insertionSort (· ≤ ·)).foldl
    (fun acc k =>
      match extractTableDataOpt mode pw ph (markers k) (doc k) with
      | some g => if g.isEmpty then acc else acc ++ [g]
      | none => acc)
    []

/-! ## Marker store
(src/core/marker_manager.py, src/gui/main_area.py, src/image/area_processor.py) -/

/-- Marker kind recorded in the undo history. -/
inductive MarkerKind where
  | column
  | row
deriving DecidableEq

/-- One `marker_history` entry: `{'type': ..., 'value': ...}`. -/
structure HistEntry where
  kind : MarkerKind
  value : ℤ
deriving DecidableEq

/-- The marker-related state of the application object: the working marker
lists, the undo history, and the status-bar text. -/
structure MarkerState where
  columns : List ℤ
  rows : List ℤ
  history : List HistEntry
  statusText : String
deriving DecidableEq

/-- Fresh application state: empty marker lists and history. -/
def initialState : MarkerState := ⟨[], [], [], ""⟩

/-- The canvas selection mode (`app.selection_mode`). -/
inductive SelMode where
  | column
  | row
  | area
deriving DecidableEq

/-- `_on_canvas_click` (src/gui/main_area.py lines 134-169) restricted to
its marker effect: in column/row mode a new marker value is appended to the
history, appended to the marker list, and the list is sorted; duplicates are
ignored; area mode touches only the selection rectangle. -/
def canvasClick (mode : SelMode) (x y : ℤ) (s : MarkerState) : MarkerState :=
  match mode with
  | SelMode.column =>
    if x ∈ s.columns then s
    else { s with history := s.history ++ [⟨MarkerKind.column, x⟩],
                  columns := (s.columns ++ [x]).insertionSort (· ≤ ·) }
  | SelMode.row =>
    if y ∈ s.rows then s
    else { s with history := s.history ++ [⟨MarkerKind.row, y⟩],
                  rows := (s.rows ++ [y]).insertionSort (· ≤ ·) }
  | SelMode.area => s

/-- Python `int()` on a rational: truncation toward zero. -/
def pyIntQ (q : ℚ) : ℤ := if 0 ≤ q then ⌊q⌋ else -⌊-q⌋

/-- Scale-factor choice of `apply_detected_lines`
(src/image/area_processor.py lines 215-229): measured
document-width / pixel-width ratio when the processed image is available,
`1 / magnification` as the fallback. -/
def scaleOf (procW : Option ℕ) (x1c x2c : ℚ) (mag : ℚ) : ℚ :=
  match procW with
  | some w => (x2c - x1c) / (w : ℚ)
  | none => 1 / mag

/-- The repeated `if v not in markers: markers.append(v);
marker_history.append(...)` blocks of `apply_detected_lines`
(src/image/area_processor.py lines 250-288). -/
def addMarkerIfNew (k : MarkerKind) (v : ℤ) (lst : List ℤ) (hist : List HistEntry) :
    List ℤ × List HistEntry :=
  if v ∈ lst then (lst, hist) else (lst ++ [v], hist ++ [⟨k, v⟩])

/-- `apply_detected_lines` (src/image/area_processor.py lines 189-300):
optionally clear, promote the four selection boundaries to markers, map
each detected pixel position `p` to `int(origin + p * scale)` and add it if
new, then sort both marker lists.  `sel` is `original_selection`
(integer document coordinates from the release handler), `x1c`/`y1c` the
cropped-region origin, `procW` the processed image's pixel width when the
image is available, `mag` the processing magnification. -/
def applyDetectedLines (clearFirst : Bool) (sel : ℤ × ℤ × ℤ × ℤ)
    (x1c y1c x2c : ℚ) (procW : Option ℕ) (mag : ℚ)
    (vlines hlines : List ℕ) (s : MarkerState) : MarkerState :=
  let scale := scaleOf procW x1c x2c mag
  let s0 := if clearFirst then { s with columns := [], rows := [], history := [] } else s
  let a1 := addMarkerIfNew MarkerKind.column sel.1 s0.columns s0.history
  let a2 := addMarkerIfNew MarkerKind.column sel.2.2.1 a1.1 a1.2
  let a3 := addMarkerIfNew MarkerKind.row sel.2.1 s0.rows a2.2
  let a4 := addMarkerIfNew MarkerKind.row sel.2.2.2 a3.1 a3.2
  let av := vlines.foldl
    (fun acc (q : ℕ) => addMarkerIfNew MarkerKind.column (pyIntQ (x1c + (q : ℚ) * scale)) acc.1 acc.2)
    (a2.1, a4.2)
  let ah := hlines.foldl
    (fun acc (q : ℕ) => addMarkerIfNew MarkerKind.row (pyIntQ (y1c + (q : ℚ) * scale)) acc.1 acc.2)
    (a4.1, av.2)
  { columns := (av.1).insertionSort (· ≤ ·),
    rows := (ah.1).insertionSort (· ≤ ·),
    history := ah.2,
    statusText := "Applied " ++ toString vlines.length ++ " vertical and "
      ++ toString hlines.length ++ " horizontal detected lines as markers" }

/-- `undo_last_marker` (src/core/marker_manager.py lines 188-214): pop the
last history entry, then try to remove its value from the matching marker
list; `list.remove` takes out the first occurrence and its `ValueError` is
reported in the status bar. -/
def undoLastMarker (s : MarkerState) : MarkerState :=
  match s.history.getLast? with
  | none => { s with statusText := "Nothing to undo" }
  | some e =>
    let hist := s.history.dropLast
    match e.kind with
    | MarkerKind.column =>
      if e.value ∈ s.columns then
        { s with history := hist, columns := s.columns.erase e.value,
                 statusText := "Removed column marker at x=" ++ toString e.value }
      else { s with history := hist, statusText := "Could not remove marker (not found)" }
    | MarkerKind.row =>
      if e.value ∈ s.rows then
        { s with history := hist, rows := s.rows.erase e.value,
                 statusText := "Removed row marker at y=" ++ toString e.value }
      else { s with history := hist, statusText := "Could not remove marker (not found)" }

/-- `clear_lines` (src/core/marker_manager.py lines 216-226). -/
def clearLines (_ : MarkerState) : MarkerState :=
  ⟨[], [], [], "All lines cleared"⟩

/-- The core marker mutations reachable from the UI. -/
inductive MarkerOp where
  | click : SelMode → ℤ → ℤ → MarkerOp
  | detect : Bool → ℤ × ℤ × ℤ × ℤ → ℚ → ℚ → ℚ → Option ℕ → ℚ → List ℕ → List ℕ → MarkerOp
  | undo : MarkerOp
  | clearAll : MarkerOp

/-- Apply one marker mutation. -/
def runOp (s : MarkerState) : MarkerOp → MarkerState
  | MarkerOp.click m x y => canvasClick m x y s
  | MarkerOp.detect c sel x1c y1c x2c w mag v h => applyDetectedLines c sel x1c y1c x2c w mag v h s
  | MarkerOp.undo => undoLastMarker s
  | MarkerOp.clearAll => clearLines s

/-- Run a sequence of marker mutations from the fresh application state. -/
def runOps (ops : List MarkerOp) : MarkerState := ops.foldl runOp initialState

/-! ## Line clustering
(src/image/line_detector.py, `cluster_lines`, lines 227-254) -/

/-- One iteration of the clustering loop (src lines 239-245): a candidate
within the threshold of the current cluster's last member joins it,
otherwise it starts a new cluster.  (Positions are sorted naturals, so the
Python signed difference `line - last <= threshold` and the truncated
natural difference agree.) -/
def clusterStep (t : ℕ) (clusters : List (List ℕ)) (line : ℕ) : List (List ℕ) :=
  match clusters.getLast? with
  | some c =>
    match c.getLast? with
    | some last =>
      if line - last ≤ t then clusters.dropLast ++ [c ++ [line]]
      else clusters ++ [[line]]
    | none => clusters ++ [[line]]
  | none => [[line]]

/-- `cluster_lines(lines, distance_threshold)` (src lines 227-254): sort the
candidates, group them greedily, and keep each cluster's element at index
`len(cluster) // 2` (the median for odd-sized clusters). -/
def cluster_lines (lines : List ℕ) (t : ℕ) : List ℕ :=
  match lines.insertionSort (· ≤ ·) with
  | [] => []
  | x :: rest =>
    ((rest.foldl (clusterStep t) [[x]]).map (fun c => c.getD (c.length / 2) 0))

/-- The spec's description of the grouping, stated structurally: walking the
sorted candidates, a candidate within the threshold of the previous
cluster's last member (that is, of the previous candidate) extends the
cluster, otherwise a new cluster begins. -/
def gapChunks (t : ℕ) : List ℕ → List (List ℕ)
  | [] => []
  | [x] => [[x]]
  | x :: y :: rest =>
    match gapChunks t (y :: rest) with
    | c :: cs => if y - x ≤ t then (x :: c) :: cs else [x] :: c :: cs
    | [] => [[x]]

/-! ## Helper lemmas -/

lemma getD_map_comm {α β : Type} (f : α → β) (l : List α) (i : ℕ) (d : α) :
    (l.map f).getD i (f d) = f (l.getD i d) := by
  induction l generalizing i with
  | nil => simp
  | cons a t ih => cases i <;> simp [ih]

lemma correctVerticalCell_empty : correctVerticalCell "" = "" := by decide

/-- The skip conditions of `_correct_vertical_text` (src lines 141-145)
leave a cell untouched. -/
lemma correctVerticalCell_skip (c : String)
    (h : c = "" ∨ c.length < 3 ∨ pyIsdigit c) : correctVerticalCell c = c := by
  rcases h with h | h
  · rw [h]; exact correctVerticalCell_empty
  · unfold correctVerticalCell
    by_cases hce : c = ""
    · simp [hce]
    · rw [if_neg hce, if_pos h]

/-- `_analyze_text_orientation` only ever reports no issue or vertical. -/
lemma analyze_range (g : Grid) (pdf : PdfOrientation) :
    analyzeTextOrientation g pdf = (false, none)
      ∨ analyzeTextOrientation g pdf = (true, some CorrectionKind.vertical) := by
  unfold analyzeTextOrientation
  by_cases h1 : (allTextOfGrid g).length < 20
  · simp [h1]
  · by_cases h2 : 5 ≤ verticalIndicators (allTextOfGrid g) pdf
    · simp [h1, h2]
    · simp [h1, h2]

/-! ## Claim theorems -/

/-- Claim C7: applying the vertical-text correction to a cell containing
"e\nl\nb\na\nT" yields "Table", and re-running orientation detection on the
corrected grid scores below the threshold 5 (indeed 0) and reports no issue
for every outcome of the PDF geometry check, so no second correction is
triggered on the already-corrected text. -/
theorem C7_idempotent_safe :
    correctVerticalCell "e\nl\nb\na\nT" = "Table"
    ∧ correctVerticalText [["e\nl\nb\na\nT"]] = [["Table"]]
    ∧ verticalIndicators (allTextOfGrid [["Table"]]) PdfOrientation.noneDetected < 5
    ∧ ∀ pdf, analyzeTextOrientation [["Table"]] pdf = (false, none) := by
  refine ⟨by decide, by decide, by decide, fun pdf => ?_⟩
  cases pdf <;> decide

/-- Claim C9: the vertical-text correction leaves unchanged every cell that
is empty, has fewer than 3 characters, or consists entirely of digits; only
cells outside these classes can be rewritten. -/
theorem C9_frame (g : Grid) (i j : ℕ)
    (h : (g.getD i []).getD j "" = ""
      ∨ ((g.getD i []).getD j "").length < 3
      ∨ pyIsdigit ((g.getD i []).getD j "")) :
    ((correctVerticalText g).getD i []).getD j "" = (g.getD i []).getD j "" := by
  have h1 : (correctVerticalText g).getD i [] = (g.getD i []).map correctVerticalCell :=
    getD_map_comm (List.map correctVerticalCell) g i []
  have h2 : ((g.getD i []).map correctVerticalCell).getD j (correctVerticalCell "")
      = correctVerticalCell ((g.getD i []).getD j "") :=
    getD_map_comm correctVerticalCell (g.getD i []) j ""
  rw [correctVerticalCell_empty] at h2
  rw [h1, h2]
  exact correctVerticalCell_skip _ h

/-- Witness for C9 at the digit cell "42" of a concrete grid. -/
theorem C9_witness :
    (pyIsdigit "42" = true)
    ∧ ((correctVerticalText [["42", "ab"]]).getD 0 []).getD 0 "" = "42" :=
  ⟨by decide, C9_frame [["42", "ab"]] 0 0 (by decide)⟩

/-- Claim C4, counterexample: no grid and no outcome of the PDF geometry
check ever makes the analysis phase report the RTL or the flipped
correction, so those detection outcomes of the state machine are not
reachable from the analyzer. -/
theorem C4_counterexample :
    ¬ ∃ g pdf, (analyzeTextOrientation g pdf).2 = some CorrectionKind.rtl
      ∨ (analyzeTextOrientation g pdf).2 = some CorrectionKind.flipped := by
  rintro ⟨g, pdf, h | h⟩ <;>
    rcases analyze_range g pdf with hr | hr <;> rw [hr] at h <;> simp at h

/-- Claim C4, amended: the analysis phase only ever reports no issue or
vertical detection; the RTL and flipped corrections are implemented (RTL
reverses each full cell string, flipped reverses each line's characters and
the line order) but are never selected by the analyzer. -/
theorem C4_orientation_amended :
    (∀ g pdf, analyzeTextOrientation g pdf = (false, none)
      ∨ analyzeTextOrientation g pdf = (true, some CorrectionKind.vertical))
    ∧ correctRtlText [["ab", "x"]] = [["ba", "x"]]
    ∧ correctFlippedText [["ab\ncd"]] = [["dc\nba"]] :=
  ⟨analyze_range, by decide, by decide⟩

/-- Claim C5, counterexample: with history [column 5] and an empty column
list, undo changes the history (the entry is popped even though removal
fails), so the state is not left unchanged as claimed. -/
theorem C5_counterexample :
    (undoLastMarker ⟨[], [], [⟨MarkerKind.column, 5⟩], ""⟩).history
      ≠ (⟨[], [], [⟨MarkerKind.column, 5⟩], ""⟩ : MarkerState).history := by decide

/-- Claim C5, amended: when the most recent history entry's value is absent
from the corresponding marker list, undo leaves both marker lists unchanged
and reports the failure, but the history entry is still popped. -/
theorem C5_undo_amended (s : MarkerState) (e : HistEntry)
    (hlast : s.history.getLast? = some e)
    (habsent : e.value ∉ (match e.kind with
      | MarkerKind.column => s.columns
      | MarkerKind.row => s.rows)) :
    (undoLastMarker s).columns = s.columns
    ∧ (undoLastMarker s).rows = s.rows
    ∧ (undoLastMarker s).history = s.history.dropLast
    ∧ (undoLastMarker s).statusText = "Could not remove marker (not found)" := by
  obtain ⟨k, v⟩ := e
  unfold undoLastMarker
  rw [hlast]
  cases k <;> simp at habsent <;> simp [habsent]

/-- Witness for C5 at the concrete inconsistent state. -/
theorem C5_witness :
    (undoLastMarker ⟨[], [], [⟨MarkerKind.column, 5⟩], ""⟩).columns = []
    ∧ (undoLastMarker ⟨[], [], [⟨MarkerKind.column, 5⟩], ""⟩).rows = []
    ∧ (undoLastMarker ⟨[], [], [⟨MarkerKind.column, 5⟩], ""⟩).history = []
    ∧ (undoLastMarker ⟨[], [], [⟨MarkerKind.column, 5⟩], ""⟩).statusText
        = "Could not remove marker (not found)" :=
  C5_undo_amended ⟨[], [], [⟨MarkerKind.column, 5⟩], ""⟩ ⟨MarkerKind.column, 5⟩
    (by decide) (by decide)

/-- Both working marker lists of a state are sorted ascending. -/
def sortedMarkers (s : MarkerState) : Prop :=
  List.Sorted (· ≤ ·) s.columns ∧ List.Sorted (· ≤ ·) s.rows

lemma sorted_erase {l : List ℤ} (a : ℤ) (h : List.Sorted (· ≤ ·) l) :
    List.Sorted (· ≤ ·) (l.erase a) :=
  h.sublist (List.erase_sublist a l)

lemma runOp_preserves_sorted (s : MarkerState) (op : MarkerOp)
    (h : sortedMarkers s) : sortedMarkers (runOp s op) := by
  cases op with
  | click m x y =>
    cases m with
    | column =>
      by_cases hx : x ∈ s.columns
      · simpa [runOp, canvasClick, hx] using h
      · exact ⟨by simpa [runOp, canvasClick, hx] using
            List.sorted_insertionSort (· ≤ ·) (s.columns ++ [x]),
          by simpa [runOp, canvasClick, hx] using h.2⟩
    | row =>
      by_cases hy : y ∈ s.rows
      · simpa [runOp, canvasClick, hy] using h
      · exact ⟨by simpa [runOp, canvasClick, hy] using h.1,
          by simpa [runOp, canvasClick, hy] using
            List.sorted_insertionSort (· ≤ ·) (s.rows ++ [y])⟩
    | area => simpa [runOp, canvasClick] using h
  | detect c sel x1c y1c x2c w mag v hl =>
    exact ⟨List.sorted_insertionSort (· ≤ ·) _, List.sorted_insertionSort (· ≤ ·) _⟩
  | undo =>
    show sortedMarkers (undoLastMarker s)
    unfold undoLastMarker
    cases hl : s.history.getLast? with
    | none => exact h
    | some e =>
      obtain ⟨k, v⟩ := e
      cases k with
      | column =>
        by_cases hv : v ∈ s.columns
        · exact ⟨by simpa [hv] using sorted_erase v h.1, by simpa [hv] using h.2⟩
        · simpa [hv] using h
      | row =>
        by_cases hv : v ∈ s.rows
        · exact ⟨by simpa [hv] using h.1, by simpa [hv] using sorted_erase v h.2⟩
        · simpa [hv] using h
  | clearAll => exact ⟨List.sorted_nil, List.sorted_nil⟩

lemma runOps_sorted_aux (ops : List MarkerOp) :
    ∀ s : MarkerState, sortedMarkers s → sortedMarkers (ops.foldl runOp s) := by
  induction ops with
  | nil => exact fun s h => h
  | cons op rest ih =>
    intro s h
    exact ih (runOp s op) (runOp_preserves_sorted s op h)

/-- Claim C10: starting from empty lists, every sequence of core marker
mutations (canvas-click additions, applying detected lines, undo, clear)
leaves both column_markers and row_markers sorted in ascending order. -/
theorem C10_sorted_invariant (ops : List MarkerOp) :
    List.Sorted (· ≤ ·) (runOps ops).columns
    ∧ List.Sorted (· ≤ ·) (runOps ops).rows :=
  runOps_sorted_aux ops initialState ⟨List.sorted_nil, List.sorted_nil⟩

lemma gapChunks_cons (t x : ℕ) (rest : List ℕ) :
    ∃ h tl, gapChunks t (x :: rest) = (x :: h) :: tl := by
  induction rest generalizing x with
  | nil => exact ⟨[], [], rfl⟩
  | cons y r ih =>
    obtain ⟨h, tl, heq⟩ := ih y
    by_cases hx : y - x ≤ t
    · exact ⟨y :: h, tl, by simp [gapChunks, heq, hx]⟩
    · exact ⟨[], (y :: h) :: tl, by simp [gapChunks, heq, hx]⟩

/-- The Python accumulator loop of `cluster_lines`, started on a state whose
last cluster ends in `x`, produces exactly the gap-split chunks of
`x :: rest`, with the first chunk extending the current cluster. -/
lemma foldl_clusterStep_eq (t : ℕ) :
    ∀ (rest : List ℕ) (x : ℕ) (cs : List (List ℕ)) (c : List ℕ),
      rest.foldl (clusterStep t) (cs ++ [c ++ [x]]) =
        match gapChunks t (x :: rest) with
        | g :: gs => cs ++ [c ++ g] ++ gs
        | [] => cs ++ [c ++ [x]] := by
  intro rest
  induction rest with
  | nil => intro x cs c; simp [gapChunks]
  | cons y r ih =>
    intro x cs c
    obtain ⟨h, tl, heq⟩ := gapChunks_cons t y r
    by_cases hx : y - x ≤ t
    · have step : clusterStep t (cs ++ [c ++ [x]]) y = cs ++ [(c ++ [x]) ++ [y]] := by
        simp [clusterStep, hx]
      have lhs : (y :: r).foldl (clusterStep t) (cs ++ [c ++ [x]])
          = r.foldl (clusterStep t) (cs ++ [(c ++ [x]) ++ [y]]) := by
        rw [List.foldl_cons, step]
      rw [lhs, ih y cs (c ++ [x]), heq]
      have hgoal : gapChunks t (x :: y :: r) = (x :: y :: h) :: tl := by
        simp [gapChunks, heq, hx]
      rw [hgoal]
      simp
    · have step : clusterStep t (cs ++ [c ++ [x]]) y = (cs ++ [c ++ [x]]) ++ [[y]] := by
        simp [clusterStep, hx]
      have lhs : (y :: r).foldl (clusterStep t) (cs ++ [c ++ [x]])
          = r.foldl (clusterStep t) ((cs ++ [c ++ [x]]) ++ [[] ++ [y]]) := by
        rw [List.foldl_cons, step]; simp
      rw [lhs, ih y (cs ++ [c ++ [x]]) [], heq]
      have hgoal : gapChunks t (x :: y :: r) = [x] :: (y :: h) :: tl := by
        simp [gapChunks, heq, hx]
      rw [hgoal]
      simp

/-- Claim C8: `cluster_lines` sorts the candidates, groups them greedily by
the within-threshold-of-the-previous-cluster's-last-member rule (stated
structurally as `gapChunks`), represents each cluster by its element at
index len/2, and in particular clusters [50, 52, 53, 120] at threshold 5 to
[52, 120]. -/
theorem C8_clustering :
    (∀ lines t, cluster_lines lines t =
      (gapChunks t (lines.insertionSort (· ≤ ·))).map (fun c => c.getD (c.length / 2) 0))
    ∧ cluster_lines [50, 52, 53, 120] 5 = [52, 120]
    ∧ gapChunks 5 [50, 52, 53, 120] = [[50, 52, 53], [120]] := by
  refine ⟨fun lines t => ?_, by decide, by decide⟩
  unfold cluster_lines
  cases hs : lines.insertionSort (· ≤ ·) with
  | nil => simp [gapChunks]
  | cons x rest =>
    dsimp only
    have key := foldl_clusterStep_eq t rest x [] []
    obtain ⟨h, tl, heq⟩ := gapChunks_cons t x rest
    rw [heq] at key
    simp only [List.nil_append, List.append_nil] at key
    rw [key, heq]
    simp

lemma sorted_head_le (a : ℚ) (l : List ℚ)
    (hs : List.Sorted (· < ·) (a :: l)) (j : ℕ) (hj : j < l.length + 1) :
    a ≤ (a :: l).getD j 0 := by
  cases j with
  | zero => simp
  | succ k =>
    have hk : k < l.length := by simpa using hj
    have hmem : l.getD k 0 ∈ l := by
      rw [List.getD_eq_getElem l 0 hk]
      exact List.getElem_mem hk
    simpa using le_of_lt ((List.sorted_cons.mp hs).1 _ hmem)

/-- On a strictly sorted bounds list, the index-search loop maps the value
of marker `i` (any but the last) to band `i`. -/
lemma findIdx_at : ∀ (C : List ℚ), List.Sorted (· < ·) C →
    ∀ i, i + 1 < C.length → findIdx C (C.getD i 0) = some i := by
  intro C
  induction C with
  | nil => intro _ i hi; simp at hi
  | cons b0 rest ih =>
    intro hs i hi
    cases rest with
    | nil => simp at hi
    | cons b1 rest2 =>
      cases i with
      | zero =>
        have hb : b0 < b1 := (List.sorted_cons.mp hs).1 b1 (by simp)
        simp [findIdx, hb]
      | succ j =>
        have hstail : List.Sorted (· < ·) (b1 :: rest2) := (List.sorted_cons.mp hs).2
        have hj : j + 1 < (b1 :: rest2).length := by simpa using hi
        have hble : b1 ≤ (b1 :: rest2).getD j 0 :=
          sorted_head_le b1 rest2 hstail j
            (by simp only [List.length_cons] at hj; omega)
        have hnot : ¬ ((b1 :: rest2).getD j 0 < b1) := not_lt.mpr hble
        have hred : findIdx (b0 :: b1 :: rest2) ((b0 :: b1 :: rest2).getD (j + 1) 0)
            = (findIdx (b1 :: rest2) ((b1 :: rest2).getD j 0)).map (· + 1) := by
          rw [List.getD_cons_succ]
          simp only [findIdx]
          rw [if_neg (fun hcon => hnot hcon.2)]
        rw [hred, ih hstail j hj]
        rfl

/-- On a strictly sorted bounds list, the value of the last marker matches
no band: the loop returns `-1` (here `none`). -/
lemma findIdx_last : ∀ (C : List ℚ), List.Sorted (· < ·) C →
    findIdx C (C.getD (C.length - 1) 0) = none := by
  intro C
  induction C with
  | nil => intro _; rfl
  | cons b0 rest ih =>
    intro hs
    cases rest with
    | nil => rfl
    | cons b1 rest2 =>
      have hstail : List.Sorted (· < ·) (b1 :: rest2) := (List.sorted_cons.mp hs).2
      have hc : (b0 :: b1 :: rest2).getD ((b0 :: b1 :: rest2).length - 1) 0
          = (b1 :: rest2).getD ((b1 :: rest2).length - 1) 0 := by simp
      have hble : b1 ≤ (b1 :: rest2).getD ((b1 :: rest2).length - 1) 0 :=
        sorted_head_le b1 rest2 hstail _ (by simp)
      have hnot : ¬ ((b1 :: rest2).getD ((b1 :: rest2).length - 1) 0 < b1) :=
        not_lt.mpr hble
      rw [hc]
      simp only [findIdx]
      rw [if_neg (fun hcon => hnot hcon.2), ih hstail]
      rfl

lemma placeSpan_skip_col (sep : String) (minX maxX minY maxY : ℚ)
    (cb rb : List ℚ) (cols rows : ℕ) (table : Grid) (s : Span)
    (h : findIdx cb (s.x0 + (s.x1 - s.x0) / 2) = none) :
    placeSpanWith sep minX maxX minY maxY cb rb cols rows table s = table := by
  simp only [placeSpanWith]
  rw [h]
  split
  · rfl
  · rfl

lemma placeSpan_skip_row (sep : String) (minX maxX minY maxY : ℚ)
    (cb rb : List ℚ) (cols rows : ℕ) (table : Grid) (s : Span)
    (h : findIdx rb (s.y0 + (s.y1 - s.y0) / 2) = none) :
    placeSpanWith sep minX maxX minY maxY cb rb cols rows table s = table := by
  simp only [placeSpanWith]
  rw [h]
  split
  · rfl
  · cases hcx : findIdx cb (s.x0 + (s.x1 - s.x0) / 2) <;> rfl

/-- Claim C6: with at least two strictly sorted column markers, a fragment
center equal to marker `i < |C|-1` is assigned to band `i` (lower bound
inclusive), while a center equal to the last marker matches no band and the
fragment is discarded (the grid is unchanged); the same index-search loop
is used for rows, and a row miss likewise discards the fragment. -/
theorem C6_boundary_policy (C : List ℚ) (hs : List.Sorted (· < ·) C)
    (_hlen : 2 ≤ C.length) :
    (∀ i, i + 1 < C.length → findIdx C (C.getD i 0) = some i)
    ∧ findIdx C (C.getD (C.length - 1) 0) = none
    ∧ (∀ sep minX maxX minY maxY rb cols rows (table : Grid) (s : Span),
        findIdx C (s.x0 + (s.x1 - s.x0) / 2) = none →
        placeSpanWith sep minX maxX minY maxY C rb cols rows table s = table)
    ∧ (∀ sep minX maxX minY maxY cb cols rows (table : Grid) (s : Span),
        findIdx C (s.y0 + (s.y1 - s.y0) / 2) = none →
        placeSpanWith sep minX maxX minY maxY cb C cols rows table s = table) :=
  ⟨findIdx_at C hs, findIdx_last C hs,
    fun sep minX maxX minY maxY rb cols rows table s h =>
      placeSpan_skip_col sep minX maxX minY maxY C rb cols rows table s h,
    fun sep minX maxX minY maxY cb cols rows table s h =>
      placeSpan_skip_row sep minX maxX minY maxY cb C cols rows table s h⟩

/-- Witness for C6 on the marker list [0, 5, 9]: the middle marker value
lands in band 1 and the last marker value matches no band. -/
theorem C6_witness :
    findIdx [(0 : ℚ), 5, 9] (([(0 : ℚ), 5, 9]).getD 1 0) = some 1
    ∧ findIdx [(0 : ℚ), 5, 9] (([(0 : ℚ), 5, 9]).getD (([(0 : ℚ), 5, 9]).length - 1) 0) = none :=
  ⟨(C6_boundary_policy [0, 5, 9] (by decide) (by decide)).1 1 (by decide),
    (C6_boundary_policy [0, 5, 9] (by decide) (by decide)).2.1⟩

lemma getD_set_self {α : Type} (l : List α) (i : ℕ) (a d : α) (h : i < l.length) :
    (l.set i a).getD i d = a := by
  induction l generalizing i with
  | nil => simp at h
  | cons x t ih =>
    cases i with
    | zero => rfl
    | succ j => exact ih j (by simpa using h)

/-- A span landing (in bounds, with valid band indices) on a nonempty cell
appends `sep ++ text` to the cell's current content. -/
lemma placeSpan_append (sep : String) (minX maxX minY maxY : ℚ)
    (cb rb : List ℚ) (cols rows : ℕ) (table : Grid) (s : Span) (ci ri : ℕ)
    (hb : minX ≤ s.x0 + (s.x1 - s.x0) / 2 ∧ s.x0 + (s.x1 - s.x0) / 2 ≤ maxX
        ∧ minY ≤ s.y0 + (s.y1 - s.y0) / 2 ∧ s.y0 + (s.y1 - s.y0) / 2 ≤ maxY)
    (hci : findIdx cb (s.x0 + (s.x1 - s.x0) / 2) = some ci)
    (hri : findIdx rb (s.y0 + (s.y1 - s.y0) / 2) = some ri)
    (hcc : ci < cols) (hrr : ri < rows)
    (hrl : ri < table.length) (hcl : ci < (table.getD ri []).length)
    (hne : (table.getD ri []).getD ci "" ≠ "") :
    ((placeSpanWith sep minX maxX minY maxY cb rb cols rows table s).getD ri []).getD ci ""
      = (table.getD ri []).getD ci "" ++ sep ++ s.text := by
  simp only [placeSpanWith]
  rw [hci, hri]
  rw [if_neg (not_not_intro hb)]
  dsimp only
  rw [if_pos ⟨hcc, hrr⟩]
  rw [getD_set_self _ _ _ _ hrl, getD_set_self _ _ _ _ hcl]
  unfold joinCell
  rw [if_pos hne]

/-- Claim C3, counterexample: in the single-page extractor two fragments
landing in the same cell are joined with a newline even though the claim's
space mode demands a space: the run produces "a\nb", not "a b"
(`extract_table` never consults the selected mode; src line 107). -/
theorem C3_counterexample :
    extractTable 100 100 [0, 10] [0, 10] [⟨"a", 4, 4, 6, 6⟩, ⟨"b", 4, 4, 6, 6⟩] = [["a\nb"]]
    ∧ ("a\nb" : String) ≠ "a b" := by
  constructor
  · norm_num [extractTable, extractGrid, placeSpanWith, findIdx, bandCount, joinCell,
      pyMin, pyMax]
    decide
  · decide

/-- Claim C3, amended: in per-page multi-page extraction a fragment landing
on a nonempty cell is appended joined by the user-selected separator (space
in space mode, newline in newline mode), and fragments are processed in
encounter order (the grid after `spans ++ [s]` is the grid after `spans`
updated with `s`); the single-page extractor, however, always joins with a
newline regardless of the selected mode. -/
theorem C3_join_amended :
    (∀ mode pw ph cm rm spans s,
      extractTableData mode pw ph cm rm (spans ++ [s])
        = placeSpanWith (sepOf mode) (pyMin cm 0) (pyMax cm pw) (pyMin rm 0) (pyMax rm ph)
            (cm.insertionSort (· ≤ ·)) (rm.insertionSort (· ≤ ·))
            (bandCount (cm.insertionSort (· ≤ ·))) (bandCount (rm.insertionSort (· ≤ ·)))
            (extractTableData mode pw ph cm rm spans) s)
    ∧ (∀ sep minX maxX minY maxY cb rb cols rows (table : Grid) (s : Span) ci ri,
        (minX ≤ s.x0 + (s.x1 - s.x0) / 2 ∧ s.x0 + (s.x1 - s.x0) / 2 ≤ maxX
          ∧ minY ≤ s.y0 + (s.y1 - s.y0) / 2 ∧ s.y0 + (s.y1 - s.y0) / 2 ≤ maxY) →
        findIdx cb (s.x0 + (s.x1 - s.x0) / 2) = some ci →
        findIdx rb (s.y0 + (s.y1 - s.y0) / 2) = some ri →
        ci < cols → ri < rows → ri < table.length → ci < (table.getD ri []).length →
        (table.getD ri []).getD ci "" ≠ "" →
        ((placeSpanWith sep minX maxX minY maxY cb rb cols rows table s).getD ri []).getD ci ""
          = (table.getD ri []).getD ci "" ++ sep ++ s.text)
    ∧ sepOf ExtractionMode.space = " "
    ∧ sepOf ExtractionMode.newline = "\n"
    ∧ extractTableData ExtractionMode.space 100 100 [0, 10] [0, 10]
        [⟨"a", 4, 4, 6, 6⟩, ⟨"b", 4, 4, 6, 6⟩] = [["a b"]]
    ∧ extractTableData ExtractionMode.newline 100 100 [0, 10] [0, 10]
        [⟨"a", 4, 4, 6, 6⟩, ⟨"b", 4, 4, 6, 6⟩] = [["a\nb"]]
    ∧ extractTable 100 100 [0, 10] [0, 10]
        [⟨"a", 4, 4, 6, 6⟩, ⟨"b", 4, 4, 6, 6⟩] = [["a\nb"]] := by
  refine ⟨fun mode pw ph cm rm spans s => ?_,
    fun sep minX maxX minY maxY cb rb cols rows table s ci ri hb hci hri hcc hrr hrl hcl hne =>
      placeSpan_append sep minX maxX minY maxY cb rb cols rows table s ci ri
        hb hci hri hcc hrr hrl hcl hne,
    rfl, rfl, ?_, ?_, ?_⟩
  · simp only [extractTableData, extractGrid, List.foldl_append, List.foldl_cons,
      List.foldl_nil]
  · norm_num [extractTableData, extractGrid, placeSpanWith, findIdx, bandCount, joinCell,
      pyMin, pyMax, sepOf]
    decide
  · norm_num [extractTableData, extractGrid, placeSpanWith, findIdx, bandCount, joinCell,
      pyMin, pyMax, sepOf]
    decide
  · norm_num [extractTable, extractGrid, placeSpanWith, findIdx, bandCount, joinCell,
      pyMin, pyMax]
    decide

/-- Witness for C3's append rule at a concrete nonempty cell in space
mode. -/
theorem C3_witness :
    ((placeSpanWith " " 0 10 0 10 [0, 10] [0, 10] 1 1 [["a"]]
        ⟨"b", 4, 4, 6, 6⟩).getD 0 []).getD 0 "" = ("a" : String) ++ " " ++ "b" :=
  C3_join_amended.2.1 " " 0 10 0 10 [0, 10] [0, 10] 1 1 [["a"]] ⟨"b", 4, 4, 6, 6⟩ 0 0
    (by norm_num) (by norm_num [findIdx]) (by norm_num [findIdx])
    (by decide) (by decide) (by decide) (by decide) (by decide)

lemma placeSpan_length (sep : String) (minX maxX minY maxY : ℚ)
    (cb rb : List ℚ) (cols rows : ℕ) (table : Grid) (s : Span) :
    (placeSpanWith sep minX maxX minY maxY cb rb cols rows table s).length = table.length := by
  simp only [placeSpanWith]
  split
  · rfl
  · split
    · split
      · simp
      · rfl
    · rfl

lemma foldl_placeSpan_length (sep : String) (minX maxX minY maxY : ℚ)
    (cb rb : List ℚ) (cols rows : ℕ) :
    ∀ (spans : List Span) (table : Grid),
      (spans.foldl (placeSpanWith sep minX maxX minY maxY cb rb cols rows) table).length
        = table.length := by
  intro spans
  induction spans with
  | nil => intro table; rfl
  | cons s rest ih =>
    intro table
    rw [List.foldl_cons, ih, placeSpan_length]

lemma bandCount_pos (b : List ℚ) : 1 ≤ bandCount b := by
  unfold bandCount
  split <;> omega

lemma extractTableData_ne_nil (mode : ExtractionMode) (pw ph : ℚ)
    (cm rm : List ℚ) (spans : List Span) :
    extractTableData mode pw ph cm rm spans ≠ [] := by
  have hl : (extractTableData mode pw ph cm rm spans).length
      = bandCount (rm.insertionSort (· ≤ ·)) := by
    simp only [extractTableData, extractGrid]
    rw [foldl_placeSpan_length]
    simp
  intro hnil
  rw [hnil] at hl
  have := bandCount_pos (rm.insertionSort (· ≤ ·))
  simp at hl
  omega

lemma marked_fold (mode : ExtractionMode) (pw ph : ℚ)
    (markers : ℕ → PageMarkers) (doc : ℕ → Option (List Span)) :
    ∀ (l : List ℕ) (acc : List Grid), (∀ k ∈ l, doc k ≠ none) →
      l.foldl
        (fun acc k =>
          match extractTableDataOpt mode pw ph (markers k) (doc k) with
          | some g => if g.isEmpty then acc else acc ++ [g]
          | none => acc)
        acc
      = acc ++ l.map (fun k =>
          extractTableData mode pw ph (markers k).columns (markers k).rows
            ((doc k).getD [])) := by
  intro l
  induction l with
  | nil => intro acc _; simp
  | cons k rest ih =>
    intro acc h
    obtain ⟨spans, hk⟩ := Option.ne_none_iff_exists'.mp (h k (by simp))
    have hopt : extractTableDataOpt mode pw ph (markers k) (doc k)
        = some (extractTableData mode pw ph (markers k).columns (markers k).rows spans) := by
      rw [hk]; rfl
    have hne : (extractTableData mode pw ph (markers k).columns (markers k).rows
        spans).isEmpty = false := by
      rw [List.isEmpty_eq_false]
      exact extractTableData_ne_nil mode pw ph (markers k).columns (markers k).rows spans
    rw [List.foldl_cons]
    have hstep :
        (match extractTableDataOpt mode pw ph (markers k) (doc k) with
          | some g => if g.isEmpty then acc else acc ++ [g]
          | none => acc)
        = acc ++ [extractTableData mode pw ph (markers k).columns (markers k).rows
            ((doc k).getD [])] := by
      rw [hopt]
      simp only [hne, Bool.false_eq_true, if_false, hk, Option.getD_some]
    rw [hstep, ih _ (fun j hj => h j (by simp [hj]))]
    simp [hk]

/-- Claim C1, counterexample: a single marked page whose extraction returns
no grid (the page read raises, modelled as `none`) is skipped by
`if page_table:` rather than contributing an empty grid, so the grid list
handed to the merge step has 0 entries while 1 page is marked. -/
theorem C1_counterexample :
    extractFromMarkedPages ExtractionMode.space 100 100 [0]
      (fun _ => ⟨[0, 10], [0, 10]⟩) (fun _ => none) = []
    ∧ ([0] : List ℕ).length = 1 :=
  ⟨rfl, rfl⟩

/-- Claim C1, amended: the grids handed to the merge step are exactly one
grid per successfully extracted marked page, in ascending page order; a
marked page whose extraction succeeds but captures no text contributes an
empty grid of its marker-implied dimensions; a marked page whose extraction
fails (returns `None`) is skipped, so the grid count equals the number of
marked pages only when every marked page extracts successfully. -/
theorem C1_amended_multipage (mode : ExtractionMode) (pw ph : ℚ) (keys : List ℕ)
    (markers : ℕ → PageMarkers) (doc : ℕ → Option (List Span))
    (h : ∀ k ∈ keys, doc k ≠ none) :
    extractFromMarkedPages mode pw ph keys markers doc
      = (keys.insertionSort (· ≤ ·)).map
          (fun k => extractTableData mode pw ph (markers k).columns (markers k).rows
            ((doc k).getD []))
    ∧ List.Sorted (· ≤ ·) (keys.insertionSort (· ≤ ·))
    ∧ (extractFromMarkedPages mode pw ph keys markers doc).length = keys.length
    ∧ (∀ cm rm, extractTableData mode pw ph cm rm []
        = List.replicate (bandCount (rm.insertionSort (· ≤ ·)))
            (List.replicate (bandCount (cm.insertionSort (· ≤ ·))) "")) := by
  have hmem : ∀ k ∈ keys.insertionSort (· ≤ ·), doc k ≠ none := fun k hk =>
    h k ((List.perm_insertionSort (· ≤ ·) keys).mem_iff.mp hk)
  have hmain : extractFromMarkedPages mode pw ph keys markers doc
      = (keys.insertionSort (· ≤ ·)).map
          (fun k => extractTableData mode pw ph (markers k).columns (markers k).rows
            ((doc k).getD [])) := by
    unfold extractFromMarkedPages
    rw [marked_fold mode pw ph markers doc _ [] hmem]
    simp
  refine ⟨hmain, List.sorted_insertionSort _ _, ?_, fun cm rm => rfl⟩
  rw [hmain, List.length_map]
  exact (List.perm_insertionSort (· ≤ ·) keys).length_eq

/-- Witness for C1 with two marked pages that both extract successfully
(with no text): the hypothesis holds and the grid list is the per-page map
over the ascending page order. -/
theorem C1_witness :
    (∀ k ∈ ([1, 0] : List ℕ), (fun _ => some ([] : List Span)) k ≠ none)
    ∧ extractFromMarkedPages ExtractionMode.space 100 100 [1, 0]
        (fun _ => ⟨[0, 10], [0, 10]⟩) (fun _ => some ([] : List Span))
      = (([1, 0] : List ℕ).insertionSort (· ≤ ·)).map
          (fun k => extractTableData ExtractionMode.space 100 100
            ((fun _ => (⟨[0, 10], [0, 10]⟩ : PageMarkers)) k).columns
            ((fun _ => (⟨[0, 10], [0, 10]⟩ : PageMarkers)) k).rows
            (((fun _ => some ([] : List Span)) k).getD [])) := by
  have hp : ∀ k ∈ ([1, 0] : List ℕ), (fun _ => some ([] : List Span)) k ≠ none := by
    intro k _
    simp
  exact ⟨hp, (C1_amended_multipage ExtractionMode.space 100 100 [1, 0]
    (fun _ => ⟨[0, 10], [0, 10]⟩) (fun _ => some ([] : List Span)) hp).1⟩

lemma addNew_mem_self (k : MarkerKind) (v : ℤ) (lst : List ℤ) (hist : List HistEntry) :
    v ∈ (addMarkerIfNew k v lst hist).1 := by
  unfold addMarkerIfNew
  split
  · assumption
  · simp

lemma addNew_mem_mono (k : MarkerKind) (v : ℤ) (lst : List ℤ) (hist : List HistEntry)
    (x : ℤ) (h : x ∈ lst) : x ∈ (addMarkerIfNew k v lst hist).1 := by
  unfold addMarkerIfNew
  split
  · exact h
  · simp [h]

lemma fold_add_mem_preserve (k : MarkerKind) (f : ℕ → ℤ) :
    ∀ (qs : List ℕ) (init : List ℤ × List HistEntry) (x : ℤ), x ∈ init.1 →
      x ∈ (qs.foldl (fun acc q => addMarkerIfNew k (f q) acc.1 acc.2) init).1 := by
  intro qs
  induction qs with
  | nil => intro init x h; exact h
  | cons q rest ih =>
    intro init x h
    exact ih _ x (addNew_mem_mono k (f q) init.1 init.2 x h)

lemma fold_add_mem (k : MarkerKind) (f : ℕ → ℤ) :
    ∀ (qs : List ℕ) (init : List ℤ × List HistEntry) (p : ℕ), p ∈ qs →
      f p ∈ (qs.foldl (fun acc q => addMarkerIfNew k (f q) acc.1 acc.2) init).1 := by
  intro qs
  induction qs with
  | nil => intro init p h; simp at h
  | cons q rest ih =>
    intro init p h
    rcases List.mem_cons.mp h with h | h
    · subst h
      exact fold_add_mem_preserve k f rest _ (f p)
        (addNew_mem_self k (f p) init.1 init.2)
    · exact ih _ p h

/-- Claim C2, counterexample: with cropped-region origin 5, cropped width 1,
processed-image width 3 and detected pixel 1, the run adds the markers
[0, 5, 100], none of which equals the exact value
`origin + pixel * scale = 5 + 1/3` demanded by the claim — the source
truncates with `int(...)` (src/image/area_processor.py lines 271, 282). -/
theorem C2_counterexample :
    (applyDetectedLines true (0, 0, 100, 100) 5 0 6 (some 3) 8 [1] [] initialState).columns
      = [0, 5, 100]
    ∧ ((0 : ℚ) ≠ 5 + (1 : ℚ) * scaleOf (some 3) 5 6 8)
    ∧ ((5 : ℚ) ≠ 5 + (1 : ℚ) * scaleOf (some 3) 5 6 8)
    ∧ ((100 : ℚ) ≠ 5 + (1 : ℚ) * scaleOf (some 3) 5 6 8) := by
  refine ⟨?_, ?_, ?_, ?_⟩
  · norm_num [applyDetectedLines, addMarkerIfNew, scaleOf, pyIntQ, initialState]
  · norm_num [scaleOf]
  · norm_num [scaleOf]
  · norm_num [scaleOf]

/-- Claim C2, amended: for every detected pixel position `p` (vertical or
horizontal), the marker value added is `int(origin + p * scale)` — the
mapping value truncated toward zero by Python `int()` — and it is present
in the resulting sorted marker list; the scale factor is the cropped
region's document-space width divided by the processed image's actual
pixel width when the processed image is available, and `1/magnification`
only as a fallback. -/
theorem C2_mapping_amended (clearFirst : Bool) (sel : ℤ × ℤ × ℤ × ℤ)
    (x1c y1c x2c : ℚ) (procW : Option ℕ) (mag : ℚ)
    (vlines hlines : List ℕ) (s : MarkerState) (p : ℕ) :
    (p ∈ vlines →
      pyIntQ (x1c + (p : ℚ) * scaleOf procW x1c x2c mag)
        ∈ (applyDetectedLines clearFirst sel x1c y1c x2c procW mag vlines hlines s).columns)
    ∧ (p ∈ hlines →
      pyIntQ (y1c + (p : ℚ) * scaleOf procW x1c x2c mag)
        ∈ (applyDetectedLines clearFirst sel x1c y1c x2c procW mag vlines hlines s).rows)
    ∧ (∀ w, scaleOf (some w) x1c x2c mag = (x2c - x1c) / (w : ℚ))
    ∧ scaleOf none x1c x2c mag = 1 / mag := by
  refine ⟨fun hp => ?_, fun hp => ?_, fun w => rfl, rfl⟩
  · simp only [applyDetectedLines]
    exact (List.perm_insertionSort (· ≤ ·) _).mem_iff.mpr
      (fold_add_mem MarkerKind.column
        (fun q => pyIntQ (x1c + (q : ℚ) * scaleOf procW x1c x2c mag)) vlines _ p hp)
  · simp only [applyDetectedLines]
    exact (List.perm_insertionSort (· ≤ ·) _).mem_iff.mpr
      (fold_add_mem MarkerKind.row
        (fun q => pyIntQ (y1c + (q : ℚ) * scaleOf procW x1c x2c mag)) hlines _ p hp)

/-- Witness for C2: detected pixel 1 of the counterexample run lands in the
final column-marker list as the truncated mapped value. -/
theorem C2_witness :
    ((1 : ℕ) ∈ ([1] : List ℕ))
    ∧ pyIntQ ((5 : ℚ) + ((1 : ℕ) : ℚ) * scaleOf (some 3) 5 6 8)
        ∈ (applyDetectedLines true (0, 0, 100, 100) 5 0 6 (some 3) 8 [1] []
            initialState).columns := by
  have h1 : (1 : ℕ) ∈ ([1] : List ℕ) := by decide
  exact ⟨h1,
    (C2_mapping_amended true (0, 0, 100, 100) 5 0 6 (some 3) 8 [1] [] initialState 1).1 h1⟩
